import Mathlib

/-!
Verification development for `scripts/add_token.py` of the token-list
repository.

The script is a single linear workflow: validate an Ethereum address,
connect to a JSON-RPC endpoint, fetch the ERC-20 metadata (name, symbol,
decimals) with three read-only contract calls, and write
`mainnet/<symbol>/data.json`.

The embedding below models:
  * the address validation performed by `web3` / `eth-utils`
    (`Web3.is_address`, `Web3.to_checksum_address`), parameterized over the
    keccak-256 hash (as a function from the lowercased hex string to the
    list of nibbles of its digest, most significant first); the EIP-55
    checksum logic is embedded faithfully, the hash itself is a parameter,
  * the token record and `fetch_token_data` (the three contract calls are
    oracles `String → Option _`; a `none` models a raised exception, and
    the `decimals()` call returns a natural number because its ABI return
    type is `uint8`),
  * the filesystem as an association list from paths (lists of components)
    to entries (directory or file with content); `create_token_directory`
    and `get_mainnet_directory` act on it,
  * the serialization performed by `json.dump(token_data, f, indent=2,
    ensure_ascii=False)` followed by `f.write("\n")`,
  * the `main` driver as a total function from an environment (CLI
    argument, stdin, connectivity, the chain oracles, the filesystem) to an
    exit code, a final filesystem, and whether any network call was made.
-/

/-! ## Address validation (model of `web3` / `eth-utils`)

`Web3.is_address` delegates to `eth_utils.is_address`:
  * `is_hexstr`: the string is nonempty and matches `(0[xX])?[0-9a-fA-F]*`,
  * `is_hex_address`: `is_hexstr` holds and the string has 40 hex digits
    after removing an optional `0x`/`0X` prefix (per the web3
    documentation, both prefixed and non-prefixed values are allowed),
  * if the unprefixed digits are neither all-lowercase nor all-uppercase
    (`is_checksum_formatted_address`), the EIP-55 checksum must verify
    (`is_checksum_address`, i.e. the string equals its own re-checksumming).

`Web3.to_checksum_address` lowercases the 40 unprefixed digits, hashes that
40-character string with keccak-256, and uppercases every digit whose
corresponding hash nibble is at least 8, prepending a lowercase `0x`.
Case mapping is ASCII `str.lower`/`str.upper` restricted to one character.
-/

def lowerChar (c : Char) : Char :=
  if 65 ≤ c.toNat ∧ c.toNat ≤ 90 then Char.ofNat (c.toNat + 32) else c

def upperChar (c : Char) : Char :=
  if 97 ≤ c.toNat ∧ c.toNat ≤ 122 then Char.ofNat (c.toNat - 32) else c

def hexDigitChars : List Char := "0123456789abcdefABCDEF".data

def isHexChar (c : Char) : Bool := decide (c ∈ hexDigitChars)

/-- True when the string starts with `0x` or `0X` (`is_0x_prefixed`). -/
def hexPrefixed (s : String) : Bool :=
  match s.data with
  | c0 :: c1 :: _ => c0 = '0' && (c1 = 'x' || c1 = 'X')
  | _ => false

/-- The characters of the string after `remove_0x_prefix`. -/
def unpref (s : String) : List Char :=
  if hexPrefixed s then s.data.drop 2 else s.data

def is_hexstr (s : String) : Bool :=
  (s != "") && (unpref s).all isHexChar

def is_hex_address (s : String) : Bool :=
  is_hexstr s && ((unpref s).length == 40)

/-- The lowercased unprefixed digits (`remove_0x_prefix` then `.lower()`). -/
def lower40 (s : String) : List Char := (unpref s).map lowerChar

/-- EIP-55 case application: uppercase the characters whose hash nibble is
at least 8.  A missing nibble counts as 0 (it never occurs at the 40-digit
call sites since keccak-256 digests have 64 nibbles). -/
def checksumMap : List Nat → List Char → List Char
  | _, [] => []
  | [], c :: cs => c :: checksumMap [] cs
  | n :: ns, c :: cs => (if 8 ≤ n then upperChar c else c) :: checksumMap ns cs

def to_checksum_address (keccak : String → List Nat) (s : String) : String :=
  "0x" ++ String.mk (checksumMap (keccak (String.mk (lower40 s))) (lower40 s))

def is_checksum_formatted_address (s : String) : Bool :=
  is_hex_address s
    && !((unpref s) == (unpref s).map lowerChar)
    && !((unpref s) == (unpref s).map upperChar)

def is_checksum_address (keccak : String → List Nat) (s : String) : Bool :=
  is_hex_address s && (s == to_checksum_address keccak s)

def is_address (keccak : String → List Nat) (s : String) : Bool :=
  if is_checksum_formatted_address s then is_checksum_address keccak s
  else is_hex_address s

/-- The lowercase hex digits, the alphabet of a normalized address. -/
def lowHexChars : List Char := "0123456789abcdef".data

/-- A shape that no possible keccak hash can rescue: after removing an
optional `0x`/`0X` prefix the string does not consist of exactly 40 hex
digits. -/
def badShape (s : String) : Bool :=
  !(((unpref s).length == 40) && (unpref s).all isHexChar)

/-- The error taxonomy of the script.  `invalidAddress` is the `ValueError`
of `validate_address`, `fetchError` the wrapped `Exception` of
`fetch_token_data`, `registryNotFound` the `FileNotFoundError` of
`get_mainnet_directory`, `alreadyExists` the `FileExistsError` of
`create_token_directory`. -/
inductive Err
  | invalidAddress
  | fetchError
  | registryNotFound
  | alreadyExists
deriving DecidableEq

deriving instance DecidableEq for Except

/-- Model of `validate_address`: raise `ValueError` unless
`Web3.is_address`, else return `Web3.to_checksum_address`. -/
def validate_address (keccak : String → List Nat) (address : String) :
    Except Err String :=
  if is_address keccak address then
    Except.ok (to_checksum_address keccak address)
  else Except.error Err.invalidAddress

/-! ## Token record and `fetch_token_data` -/

def CHAIN_ID : Nat := 143

/-- The in-memory dict built by `fetch_token_data` (Python dicts preserve
insertion order: chainId, address, name, symbol, decimals). -/
structure TokenData where
  chainId : Nat
  address : String
  name : String
  symbol : String
  decimals : Nat
deriving DecidableEq

/-- Model of `fetch_token_data`: three independent read-only contract
calls; `none` from an oracle models the underlying call raising, which the
function wraps into its own `Exception` (`fetchError`). -/
def fetch_token_data (nameOf symbolOf : String → Option String)
    (decimalsOf : String → Option Nat) (address : String) :
    Except Err TokenData :=
  match nameOf address with
  | none => Except.error Err.fetchError
  | some name =>
    match symbolOf address with
    | none => Except.error Err.fetchError
    | some symbol =>
      match decimalsOf address with
      | none => Except.error Err.fetchError
      | some decimals => Except.ok ⟨CHAIN_ID, address, name, symbol, decimals⟩

/-! ## Serialization (model of `json.dump(..., indent=2, ensure_ascii=False)`) -/

/-- Decimal digit character (`chr(48 + k)` for `k < 10`). -/
def digitChar (k : Nat) : Char := Char.ofNat (48 + k)

/-- Fuel-driven digit expansion (structural, so it reduces in the
kernel); `natDigits` supplies enough fuel. -/
def natDigitsAux : Nat → Nat → List Char
  | 0, _ => []
  | fuel + 1, n =>
    if n < 10 then [digitChar n]
    else natDigitsAux fuel (n / 10) ++ [digitChar (n % 10)]

/-- The decimal digits of a natural number, most significant first; models
Python's `repr` of a non-negative `int`. -/
def natDigits (n : Nat) : List Char := natDigitsAux (n + 1) n

def natRepr (n : Nat) : String := String.mk (natDigits n)

/-- Lowercase hex digit character, as produced by Python's `"%04x"`. -/
def hexDigitChar (k : Nat) : Char :=
  if k < 10 then Char.ofNat (48 + k) else Char.ofNat (87 + k)

/-- Model of the `json` module's per-character string escaping with
`ensure_ascii=False`: `"` and `\` are backslash-escaped, the five named
control characters use their short escapes, the remaining control
characters use `\u00XX`, and everything else is emitted raw. -/
def escapeChar (c : Char) : List Char :=
  if c = '"' then ['\\', '"']
  else if c = '\\' then ['\\', '\\']
  else if c = '\n' then ['\\', 'n']
  else if c = '\t' then ['\\', 't']
  else if c = '\r' then ['\\', 'r']
  else if c.toNat = 8 then ['\\', 'b']
  else if c.toNat = 12 then ['\\', 'f']
  else if c.toNat < 32 then
    ['\\', 'u', '0', '0', hexDigitChar (c.toNat / 16), hexDigitChar (c.toNat % 16)]
  else [c]

def escapeList (l : List Char) : List Char := l.flatMap escapeChar

/-- A JSON string literal: quote, escaped characters, quote. -/
def encodeString (s : String) : String :=
  "\"" ++ String.mk (escapeList s.data) ++ "\""

/-- The JSON values that occur in the token dict: non-negative integers and
strings. -/
inductive JVal
  | num (n : Nat)
  | str (s : String)
deriving DecidableEq

def renderJVal : JVal → String
  | JVal.num n => natRepr n
  | JVal.str s => encodeString s

def renderEntry (kv : String × JVal) : String :=
  "  " ++ encodeString kv.1 ++ ": " ++ renderJVal kv.2

def sepJoin (sep : String) : List String → String
  | [] => ""
  | [x] => x
  | x :: y :: xs => x ++ sep ++ sepJoin sep (y :: xs)

/-- Model of `json.dump(obj, f, indent=2, ensure_ascii=False)` for a flat
object: each key/value pair on its own line indented by two spaces, pairs
separated by `,\n`, wrapped in braces. -/
def jsonDumpObj (entries : List (String × JVal)) : String :=
  match entries with
  | [] => "\x7b\x7d"
  | es => "\x7b\n" ++ sepJoin ",\n" (es.map renderEntry) ++ "\n\x7d"

/-- The token dict as an ordered list of JSON entries. -/
def tokenPairs (td : TokenData) : List (String × JVal) :=
  [("chainId", JVal.num td.chainId), ("address", JVal.str td.address),
   ("name", JVal.str td.name), ("symbol", JVal.str td.symbol),
   ("decimals", JVal.num td.decimals)]

/-- The bytes written to `data.json`: the dump plus the explicit
`f.write("\n")`. -/
def writeContent (td : TokenData) : String :=
  jsonDumpObj (tokenPairs td) ++ "\n"

/-! ## Filesystem and the two directory operations -/

inductive FsEntry
  | dir
  | file (content : String)
deriving DecidableEq

/-- The filesystem: an association list from paths (component lists) to
entries; newer entries are consed at the front. -/
abbrev FS := List (List String × FsEntry)

/-- `Path.exists()`: any entry (directory or plain file) at the path. -/
def FS.existsPath (fs : FS) (p : List String) : Bool :=
  fs.any (fun e => e.1 == p)

/-- `Path.is_dir()`. -/
def FS.isDir (fs : FS) (p : List String) : Bool :=
  fs.any (fun e => e.1 == p && e.2 == FsEntry.dir)

def FS.lookupFile (fs : FS) (p : List String) : Option String :=
  match fs.find? (fun e => e.1 == p) with
  | some (_, FsEntry.file c) => some c
  | _ => none

/-- `pathlib`'s `/` on a single component: empty components are dropped
(`Path("a") / "" == Path("a")`). -/
def joinPath (base : List String) (component : String) : List String :=
  if component = "" then base else base ++ [component]

/-- Model of `get_mainnet_directory`: resolve `<script dir>/../mainnet` and
fail with `FileNotFoundError` unless it is a directory. -/
def get_mainnet_directory (scriptParent : List String) (fs : FS) :
    Except Err (List String) :=
  if FS.isDir fs (scriptParent ++ ["mainnet"]) then
    Except.ok (scriptParent ++ ["mainnet"])
  else Except.error Err.registryNotFound

/-- Model of `create_token_directory`: fail with `FileExistsError` if
anything exists at `mainnet_dir / symbol`, otherwise create the directory
and write `data.json` inside it, returning the new filesystem and the
token directory. -/
def create_token_directory (fs : FS) (mainnet_dir : List String)
    (token_data : TokenData) : Except Err (FS × List String) :=
  let token_dir := joinPath mainnet_dir token_data.symbol
  if FS.existsPath fs token_dir then Except.error Err.alreadyExists
  else
    Except.ok
      ((token_dir ++ ["data.json"], FsEntry.file (writeContent token_data))
        :: (token_dir, FsEntry.dir) :: fs,
       token_dir)

/-! ## The `main` driver -/

/-- The environment of one invocation: the optional CLI argument, the
stdin line used when it is absent or empty, the keccak hash, whether
`web3.is_connected()` returns true, the three contract-call oracles, the
location of the script, and the initial filesystem. -/
structure Env where
  addressArg : Option String
  stdinLine : String
  keccak : String → List Nat
  connected : Bool
  nameOf : String → Option String
  symbolOf : String → Option String
  decimalsOf : String → Option Nat
  scriptParent : List String
  fs : FS

/-- Outcome of a run: the process exit code, the final filesystem, and
whether any network call (connectivity check or contract call) happened. -/
structure RunResult where
  exit : Nat
  fs : FS
  netAttempted : Bool
deriving DecidableEq

def Env.setFs (e : Env) (f : FS) : Env :=
  ⟨e.addressArg, e.stdinLine, e.keccak, e.connected, e.nameOf, e.symbolOf,
   e.decimalsOf, e.scriptParent, f⟩

/-- The address the script works with: the CLI argument if present and
nonempty, else the stripped stdin line. -/
def resolveArg (e : Env) : String :=
  match e.addressArg with
  | some a => if a = "" then e.stdinLine.trim else a
  | none => e.stdinLine.trim

/-- Model of `main`: the linear pipeline with every failure mapped to exit
code 1 (all exceptions are caught in `main`, and `__main__` passes
`main()`'s return value to `sys.exit`). -/
def mainRun (env : Env) : RunResult :=
  let address0 := resolveArg env
  if address0 = "" then ⟨1, env.fs, false⟩
  else
    match validate_address env.keccak address0 with
    | Except.error _ => ⟨1, env.fs, false⟩
    | Except.ok address =>
      if env.connected = false then ⟨1, env.fs, true⟩
      else
        match fetch_token_data env.nameOf env.symbolOf env.decimalsOf address with
        | Except.error _ => ⟨1, env.fs, true⟩
        | Except.ok token_data =>
          match get_mainnet_directory env.scriptParent env.fs with
          | Except.error _ => ⟨1, env.fs, true⟩
          | Except.ok mainnet_dir =>
            match create_token_directory env.fs mainnet_dir token_data with
            | Except.error _ => ⟨1, env.fs, true⟩
            | Except.ok (fs2, _) => ⟨0, fs2, true⟩

/-! ## A parser for the persisted format

Modelled from the spec: the spec documents the persisted `data.json`
format (a flat JSON object with the five fields in order, two-space
indentation, trailing newline) and states a serialize-then-parse
round-trip law; the parser below is the spec-side inverse used to state
that law.  It reads the documented layout and parses the integer and
string payloads generically (including every escape the serializer can
produce). -/

def strip : List Char → List Char → Option (List Char)
  | [], cs => some cs
  | _ :: _, [] => none
  | p :: ps, c :: cs => if c = p then strip ps cs else none

def isDigitChar (c : Char) : Bool := decide ('0' ≤ c) && decide (c ≤ '9')

def parseDigits : Nat → List Char → Nat × List Char
  | acc, [] => (acc, [])
  | acc, c :: cs =>
    if isDigitChar c then parseDigits (10 * acc + (c.toNat - 48)) cs
    else (acc, c :: cs)

def parseNat? (cs : List Char) : Option (Nat × List Char) :=
  match cs with
  | [] => none
  | c :: _ => if isDigitChar c then some (parseDigits 0 cs) else none

def hexVal (c : Char) : Nat :=
  if decide ('0' ≤ c) && decide (c ≤ '9') then c.toNat - 48
  else if decide ('a' ≤ c) && decide (c ≤ 'f') then c.toNat - 87
  else if decide ('A' ≤ c) && decide (c ≤ 'F') then c.toNat - 55
  else 0

def parseStrBody : List Char → Option (List Char × List Char)
  | [] => none
  | c :: cs =>
    if c = '"' then some ([], cs)
    else if c = '\\' then
      match cs with
      | [] => none
      | e :: cs2 =>
        if e = '"' then (fun r => ('"' :: r.1, r.2)) <$> parseStrBody cs2
        else if e = '\\' then (fun r => ('\\' :: r.1, r.2)) <$> parseStrBody cs2
        else if e = 'n' then (fun r => ('\n' :: r.1, r.2)) <$> parseStrBody cs2
        else if e = 't' then (fun r => ('\t' :: r.1, r.2)) <$> parseStrBody cs2
        else if e = 'r' then (fun r => ('\r' :: r.1, r.2)) <$> parseStrBody cs2
        else if e = 'b' then
          (fun r => (Char.ofNat 8 :: r.1, r.2)) <$> parseStrBody cs2
        else if e = 'f' then
          (fun r => (Char.ofNat 12 :: r.1, r.2)) <$> parseStrBody cs2
        else if e = 'u' then
          match cs2 with
          | h1 :: h2 :: h3 :: h4 :: cs3 =>
            if isHexChar h1 && isHexChar h2 && isHexChar h3 && isHexChar h4 then
              (fun r =>
                (Char.ofNat
                  (4096 * hexVal h1 + 256 * hexVal h2 + 16 * hexVal h3 + hexVal h4)
                  :: r.1, r.2)) <$> parseStrBody cs3
            else none
          | _ => none
        else none
    else (fun r => (c :: r.1, r.2)) <$> parseStrBody cs

def parseJString (cs : List Char) : Option (String × List Char) :=
  match cs with
  | [] => none
  | c :: rest =>
    if c = '"' then (fun r => (String.mk r.1, r.2)) <$> parseStrBody rest
    else none

/-- Parser for the documented `data.json` layout; consumes the whole
input. -/
def parseTokenFile (s : String) : Option TokenData := do
  let c1 ← strip ("\x7b\n  \"chainId\": ".data) s.data
  let (chainId, c2) ← parseNat? c1
  let c3 ← strip (",\n  \"address\": ".data) c2
  let (address, c4) ← parseJString c3
  let c5 ← strip (",\n  \"name\": ".data) c4
  let (name, c6) ← parseJString c5
  let c7 ← strip (",\n  \"symbol\": ".data) c6
  let (symbol, c8) ← parseJString c7
  let c9 ← strip (",\n  \"decimals\": ".data) c8
  let (decimals, c10) ← parseNat? c9
  let c11 ← strip ("\n\x7d\n".data) c10
  if c11 = [] then some ⟨chainId, address, name, symbol, decimals⟩ else none

/-! ## Concrete fixtures for instantiating the theorems -/

/-- A keccak stub whose digest nibbles are all zero (every digit of a
checksummed address stays lowercase). -/
def kZero : String → List Nat := fun _ => List.replicate 40 0

/-- A keccak stub whose digest nibbles are all 15 (every letter of a
checksummed address is uppercased). -/
def kHigh : String → List Nat := fun _ => List.replicate 40 15

/-- An environment in which a run succeeds end to end. -/
def envEx : Env :=
  ⟨some "0xaaaaaaaaaaaaaaaaaaaaaaaaaaaaaaaaaaaaaaaa", "", kZero, true,
   fun _ => some "Example Token", fun _ => some "EXT", fun _ => some 18,
   [], [(["mainnet"], FsEntry.dir)]⟩

/-- The same environment with the endpoint unreachable. -/
def envDown : Env :=
  ⟨some "0xaaaaaaaaaaaaaaaaaaaaaaaaaaaaaaaaaaaaaaaa", "", kZero, false,
   fun _ => some "Example Token", fun _ => some "EXT", fun _ => some 18,
   [], [(["mainnet"], FsEntry.dir)]⟩

/-- An environment invoked with a malformed (too short) address. -/
def envBad : Env :=
  ⟨some "0x123", "", kZero, true,
   fun _ => some "Example Token", fun _ => some "EXT", fun _ => some 18,
   [], [(["mainnet"], FsEntry.dir)]⟩

/-- An environment invoked with a bare 40-hex-digit address that has no
`0x` prefix. -/
def envBare : Env :=
  ⟨some "d3cda913deb6f67967b99d67acdfa1712c293601", "", kZero, true,
   fun _ => some "Example Token", fun _ => some "EXT", fun _ => some 18,
   [], [(["mainnet"], FsEntry.dir)]⟩

/-! ## Basic lemmas -/

theorem mk_data (s : String) : String.mk s.data = s := rfl

theorem natRepr_data (n : Nat) : (natRepr n).data = natDigits n := rfl

theorem natDigitsAux_congr :
    ∀ f1 : Nat, ∀ f2 n : Nat, n < f1 → n < f2 →
      natDigitsAux f1 n = natDigitsAux f2 n := by
  intro f1
  induction f1 with
  | zero => intro f2 n h1 _; omega
  | succ f ih =>
    intro f2 n h1 h2
    cases f2 with
    | zero => omega
    | succ g =>
      by_cases h : n < 10
      · simp [natDigitsAux, h]
      · simp only [natDigitsAux, if_neg h]
        have hlt : n / 10 < n := Nat.div_lt_self (by omega) (by omega)
        rw [ih f (n / 10) (by omega) (by omega), ih g (n / 10) (by omega) (by omega)]

theorem natDigits_eq (n : Nat) :
    natDigits n =
      if n < 10 then [digitChar n]
      else natDigits (n / 10) ++ [digitChar (n % 10)] := by
  have h1 : natDigits n
      = if n < 10 then [digitChar n]
        else natDigitsAux n (n / 10) ++ [digitChar (n % 10)] := rfl
  by_cases h : n < 10
  · rw [h1, if_pos h, if_pos h]
  · have hlt : n / 10 < n := Nat.div_lt_self (by omega) (by omega)
    rw [h1, if_neg h, if_neg h,
      show natDigits (n / 10) = natDigitsAux (n / 10 + 1) (n / 10) from rfl,
      natDigitsAux_congr n (n / 10 + 1) (n / 10) (by omega) (by omega)]

theorem digitChar_facts :
    ∀ k, k < 10 → isDigitChar (digitChar k) = true ∧ (digitChar k).toNat - 48 = k := by
  decide

theorem hexDigitChar_facts :
    ∀ k, k < 16 → isHexChar (hexDigitChar k) = true ∧ hexVal (hexDigitChar k) = k := by
  decide

theorem parseDigits_natDigits :
    ∀ n acc rest, parseDigits acc (natDigits n ++ rest)
      = parseDigits (acc * 10 ^ (natDigits n).length + n) rest := by
  intro n
  induction n using Nat.strong_induction_on with
  | _ n ih =>
    intro acc rest
    rw [natDigits_eq n]
    by_cases h : n < 10
    · simp only [if_pos h, List.cons_append, List.nil_append, List.length_cons,
        List.length_nil]
      rw [parseDigits, if_pos (digitChar_facts n h).1, (digitChar_facts n h).2]
      congr 1
      omega
    · have hlt : n / 10 < n := Nat.div_lt_self (by omega) (by omega)
      have hm : n % 10 < 10 := Nat.mod_lt _ (by omega)
      simp only [if_neg h, List.append_assoc, List.cons_append, List.nil_append,
        List.length_append, List.length_cons, List.length_nil]
      rw [ih (n / 10) hlt acc (digitChar (n % 10) :: rest)]
      rw [parseDigits, if_pos (digitChar_facts _ hm).1, (digitChar_facts _ hm).2]
      congr 1
      simp only [Nat.zero_add]
      rw [pow_succ, ← Nat.mul_assoc]
      generalize acc * 10 ^ (natDigits (n / 10)).length = A
      omega

theorem natDigits_head :
    ∀ n, ∃ c cs, natDigits n = c :: cs ∧ isDigitChar c = true := by
  intro n
  induction n using Nat.strong_induction_on with
  | _ n ih =>
    rw [natDigits_eq n]
    by_cases h : n < 10
    · exact ⟨digitChar n, [], by simp [h], (digitChar_facts n h).1⟩
    · have hlt : n / 10 < n := Nat.div_lt_self (by omega) (by omega)
      obtain ⟨c, cs, hcs, hdig⟩ := ih (n / 10) hlt
      exact ⟨c, cs ++ [digitChar (n % 10)], by simp [h, hcs], hdig⟩

theorem parseNat?_natDigits (n : Nat) (c : Char) (rest : List Char)
    (hc : isDigitChar c = false) :
    parseNat? (natDigits n ++ (c :: rest)) = some (n, c :: rest) := by
  obtain ⟨d, ds, hd, hdig⟩ := natDigits_head n
  have h1 : parseDigits 0 (natDigits n ++ (c :: rest)) = (n, c :: rest) := by
    rw [parseDigits_natDigits n 0 (c :: rest), Nat.zero_mul, Nat.zero_add,
      parseDigits, if_neg (by simp [hc])]
  rw [hd]
  simp only [List.cons_append, parseNat?, if_pos hdig]
  rw [← List.cons_append, ← hd, h1]

theorem parseStrBody_escapeChar (c : Char) (Y l rest : List Char)
    (hY : parseStrBody Y = some (l, rest)) :
    parseStrBody (escapeChar c ++ Y) = some (c :: l, rest) := by
  by_cases h1 : c = '"'
  · subst h1
    rw [show escapeChar '"' = ['\\', '"'] from by decide]
    simp only [List.cons_append, List.nil_append]
    rw [parseStrBody.eq_def]
    simp [hY]
  by_cases h2 : c = '\\'
  · subst h2
    rw [show escapeChar '\\' = ['\\', '\\'] from by decide]
    simp only [List.cons_append, List.nil_append]
    rw [parseStrBody.eq_def]
    simp [hY]
  by_cases h3 : c = '\n'
  · subst h3
    rw [show escapeChar '\n' = ['\\', 'n'] from by decide]
    simp only [List.cons_append, List.nil_append]
    rw [parseStrBody.eq_def]
    simp [hY]
  by_cases h4 : c = '\t'
  · subst h4
    rw [show escapeChar '\t' = ['\\', 't'] from by decide]
    simp only [List.cons_append, List.nil_append]
    rw [parseStrBody.eq_def]
    simp [hY]
  by_cases h5 : c = '\r'
  · subst h5
    rw [show escapeChar '\r' = ['\\', 'r'] from by decide]
    simp only [List.cons_append, List.nil_append]
    rw [parseStrBody.eq_def]
    simp [hY]
  by_cases h6 : c.toNat = 8
  · have hc : Char.ofNat 8 = c := by rw [← h6, Char.ofNat_toNat]
    rw [escapeChar, if_neg h1, if_neg h2, if_neg h3, if_neg h4, if_neg h5,
      if_pos h6]
    simp only [List.cons_append, List.nil_append]
    rw [parseStrBody.eq_def]
    simp [hY]
    exact hc
  by_cases h7 : c.toNat = 12
  · have hc : Char.ofNat 12 = c := by rw [← h7, Char.ofNat_toNat]
    rw [escapeChar, if_neg h1, if_neg h2, if_neg h3, if_neg h4, if_neg h5,
      if_neg h6, if_pos h7]
    simp only [List.cons_append, List.nil_append]
    rw [parseStrBody.eq_def]
    simp [hY]
    exact hc
  by_cases h8 : c.toNat < 32
  · rw [escapeChar, if_neg h1, if_neg h2, if_neg h3, if_neg h4, if_neg h5,
      if_neg h6, if_neg h7, if_pos h8]
    have f1 := hexDigitChar_facts (c.toNat / 16) (by omega)
    have f2 := hexDigitChar_facts (c.toNat % 16) (by omega)
    simp only [List.cons_append, List.nil_append]
    rw [parseStrBody.eq_def]
    simp only [reduceIte, reduceCtorEq, Char.reduceEq]
    rw [if_pos (by simp [f1.1, f2.1, show isHexChar '0' = true from by decide])]
    rw [show (4096 * hexVal '0' + 256 * hexVal '0'
        + 16 * hexVal (hexDigitChar (c.toNat / 16))
        + hexVal (hexDigitChar (c.toNat % 16))) = c.toNat from by
      rw [f1.2, f2.2, show hexVal '0' = 0 from by decide]; omega]
    rw [Char.ofNat_toNat, hY]
    rfl
  · rw [escapeChar, if_neg h1, if_neg h2, if_neg h3, if_neg h4, if_neg h5,
      if_neg h6, if_neg h7, if_neg h8]
    simp only [List.cons_append, List.nil_append]
    rw [parseStrBody.eq_def]
    simp only [if_neg h1, if_neg h2]
    rw [hY]
    rfl

theorem parseStrBody_escape :
    ∀ l rest : List Char,
      parseStrBody (escapeList l ++ ('"' :: rest)) = some (l, rest) := by
  intro l
  induction l with
  | nil =>
    intro rest
    show parseStrBody ([] ++ ('"' :: rest)) = some ([], rest)
    rw [List.nil_append, parseStrBody.eq_def]
    simp
  | cons c l ih =>
    intro rest
    rw [show escapeList (c :: l) = escapeChar c ++ escapeList l from by
      simp [escapeList], List.append_assoc]
    exact parseStrBody_escapeChar c _ l rest (ih rest)

theorem encodeString_data (s : String) :
    (encodeString s).data = '"' :: (escapeList s.data ++ ['"']) := by
  rw [encodeString, String.data_append, String.data_append]
  rfl

theorem parseJString_encode (s : String) (rest : List Char) :
    parseJString ((encodeString s).data ++ rest) = some (s, rest) := by
  rw [encodeString_data]
  simp only [List.cons_append, List.append_assoc, List.singleton_append]
  simp [parseJString, parseStrBody_escape s.data rest, mk_data]

theorem strip_append : ∀ p rest : List Char, strip p (p ++ rest) = some rest := by
  intro p
  induction p with
  | nil => intro rest; simp [strip]
  | cons c p ih => intro rest; simp [strip, ih]

theorem data_mk (l : List Char) : (String.mk l).data = l := rfl

theorem parseTokenFile_writeContent (td : TokenData) :
    parseTokenFile (writeContent td) = some td := by
  obtain ⟨n0, a0, m0, s0, d0⟩ := td
  simp only [writeContent, jsonDumpObj, tokenPairs, sepJoin, renderEntry,
    renderJVal, natRepr, List.map]
  simp [parseTokenFile, String.data_append, encodeString_data, data_mk, mk_data,
    List.append_assoc, strip, parseNat?_natDigits, parseStrBody_escape,
    parseJString, Option.bind,
    show isDigitChar ',' = false from by decide,
    show isDigitChar '\n' = false from by decide]

/-! ## Filesystem and driver lemmas -/

theorem mem_existsPath {fs : FS} {p : List String} (e : FsEntry)
    (h : (p, e) ∈ fs) : FS.existsPath fs p = true := by
  simp only [FS.existsPath, List.any_eq_true]
  exact ⟨(p, e), h, by simp⟩

theorem create_exists_error (fs : FS) (m : List String) (td : TokenData)
    (h : FS.existsPath fs (joinPath m td.symbol) = true) :
    create_token_directory fs m td = Except.error Err.alreadyExists := by
  simp only [create_token_directory]
  rw [if_pos h]

theorem create_ok_shape (fs : FS) (m : List String) (td : TokenData)
    (fs2 : FS) (tdir : List String)
    (h : create_token_directory fs m td = Except.ok (fs2, tdir)) :
    tdir = joinPath m td.symbol ∧ FS.existsPath fs tdir = false
    ∧ fs2 = (tdir ++ ["data.json"], FsEntry.file (writeContent td))
        :: (tdir, FsEntry.dir) :: fs := by
  simp only [create_token_directory] at h
  by_cases he : FS.existsPath fs (joinPath m td.symbol) = true
  · rw [if_pos he] at h; simp at h
  · rw [if_neg he] at h
    injection h with h1
    injection h1 with hA hB
    subst hA
    subst hB
    simp only [Bool.not_eq_true] at he
    exact ⟨rfl, he, rfl⟩

theorem lookup_new_file (fs : FS) (p : List String) (content : String)
    (e2 : List String × FsEntry) :
    FS.lookupFile ((p, FsEntry.file content) :: e2 :: fs) p = some content := by
  simp [FS.lookupFile, List.find?]

theorem get_mainnet_ok (sp : List String) (fs : FS) (md : List String)
    (h : get_mainnet_directory sp fs = Except.ok md) :
    md = sp ++ ["mainnet"] ∧ FS.isDir fs (sp ++ ["mainnet"]) = true := by
  simp only [get_mainnet_directory] at h
  by_cases hd : FS.isDir fs (sp ++ ["mainnet"]) = true
  · rw [if_pos hd] at h
    injection h with h1
    exact ⟨h1.symm, hd⟩
  · rw [if_neg hd] at h
    simp at h

theorem mainRun_cases (env : Env) :
    ((mainRun env).exit = 1 ∧ (mainRun env).fs = env.fs)
    ∨ ((mainRun env).exit = 0
        ∧ (mainRun env).fs.length = env.fs.length + 2) := by
  simp only [mainRun]
  by_cases h0 : resolveArg env = ""
  · rw [if_pos h0]; exact Or.inl ⟨rfl, rfl⟩
  rw [if_neg h0]
  cases hv : validate_address env.keccak (resolveArg env) with
  | error e => exact Or.inl ⟨rfl, rfl⟩
  | ok address =>
    dsimp only
    by_cases hc : env.connected = false
    · rw [if_pos hc]; exact Or.inl ⟨rfl, rfl⟩
    rw [if_neg hc]
    cases hf : fetch_token_data env.nameOf env.symbolOf env.decimalsOf address with
    | error e => exact Or.inl ⟨rfl, rfl⟩
    | ok td =>
      dsimp only
      cases hm : get_mainnet_directory env.scriptParent env.fs with
      | error e => exact Or.inl ⟨rfl, rfl⟩
      | ok md =>
        dsimp only
        cases hcr : create_token_directory env.fs md td with
        | error e => exact Or.inl ⟨rfl, rfl⟩
        | ok p =>
          obtain ⟨fs2, tdir⟩ := p
          obtain ⟨ht, hex, hshape⟩ := create_ok_shape env.fs md td fs2 tdir hcr
          refine Or.inr ⟨rfl, ?_⟩
          show fs2.length = env.fs.length + 2
          rw [hshape]
          simp

theorem mainRun_success (env : Env) (h : (mainRun env).exit = 0) :
    ∃ address td md,
      resolveArg env ≠ "" ∧
      validate_address env.keccak (resolveArg env) = Except.ok address ∧
      env.connected = true ∧
      fetch_token_data env.nameOf env.symbolOf env.decimalsOf address
        = Except.ok td ∧
      get_mainnet_directory env.scriptParent env.fs = Except.ok md ∧
      FS.existsPath env.fs (joinPath md td.symbol) = false ∧
      (mainRun env).fs
        = (joinPath md td.symbol ++ ["data.json"],
            FsEntry.file (writeContent td))
          :: (joinPath md td.symbol, FsEntry.dir) :: env.fs := by
  simp only [mainRun] at h ⊢
  by_cases h0 : resolveArg env = ""
  · rw [if_pos h0] at h; simp at h
  rw [if_neg h0] at h ⊢
  cases hv : validate_address env.keccak (resolveArg env) with
  | error e => rw [hv] at h; simp at h
  | ok address =>
    rw [hv] at h
    dsimp only at h ⊢
    by_cases hc : env.connected = false
    · rw [if_pos hc] at h; simp at h
    rw [if_neg hc] at h ⊢
    have hcon : env.connected = true := by
      revert hc; cases env.connected <;> simp
    cases hf : fetch_token_data env.nameOf env.symbolOf env.decimalsOf address with
    | error e => rw [hf] at h; simp at h
    | ok td =>
      rw [hf] at h
      dsimp only at h ⊢
      cases hm : get_mainnet_directory env.scriptParent env.fs with
      | error e => rw [hm] at h; simp at h
      | ok md =>
        rw [hm] at h
        dsimp only at h ⊢
        cases hcr : create_token_directory env.fs md td with
        | error e => rw [hcr] at h; simp at h
        | ok p =>
          obtain ⟨fs2, tdir⟩ := p
          rw [hcr] at h
          dsimp only at h ⊢
          obtain ⟨ht, hex, hshape⟩ := create_ok_shape env.fs md td fs2 tdir hcr
          subst ht
          exact ⟨address, td, md, h0, rfl, hcon, hf, rfl, hex, hshape⟩

theorem mainRun_disconnected (env : Env) (hc : env.connected = false) :
    (mainRun env).exit = 1 ∧ (mainRun env).fs = env.fs := by
  simp only [mainRun]
  by_cases h0 : resolveArg env = ""
  · rw [if_pos h0]; exact ⟨rfl, rfl⟩
  rw [if_neg h0]
  cases hv : validate_address env.keccak (resolveArg env) with
  | error e => exact ⟨rfl, rfl⟩
  | ok address =>
    dsimp only
    rw [if_pos hc]
    exact ⟨rfl, rfl⟩

theorem mainRun_invalid (env : Env) (s : String) (hA : env.addressArg = some s)
    (hne : s ≠ "")
    (hv : validate_address env.keccak s = Except.error Err.invalidAddress) :
    mainRun env = ⟨1, env.fs, false⟩ := by
  have hr : resolveArg env = s := by simp [resolveArg, hA, hne]
  simp only [mainRun, hr, if_neg hne, hv]

/-! ## Validation lemmas -/

theorem is_address_hex (k : String → List Nat) (s : String)
    (h : is_address k s = true) : is_hex_address s = true := by
  unfold is_address at h
  by_cases hf : is_checksum_formatted_address s = true
  · rw [if_pos hf] at h
    unfold is_checksum_address at h
    simp only [Bool.and_eq_true] at h
    exact h.1
  · rw [if_neg hf] at h
    exact h

theorem hex_facts (s : String) (h : is_hex_address s = true) :
    s ≠ "" ∧ (unpref s).length = 40 ∧ ∀ c ∈ unpref s, c ∈ hexDigitChars := by
  unfold is_hex_address is_hexstr at h
  simp only [Bool.and_eq_true] at h
  obtain ⟨⟨h1, h2⟩, h3⟩ := h
  refine ⟨?_, ?_, ?_⟩
  · exact bne_iff_ne.mp h1
  · exact beq_iff_eq.mp h3
  · intro c hc
    exact of_decide_eq_true (List.all_eq_true.mp h2 c hc)

theorem hexLower_mem : ∀ c ∈ hexDigitChars, lowerChar c ∈ lowHexChars := by
  decide

theorem lowHex_sub_hex : ∀ c ∈ lowHexChars, c ∈ hexDigitChars := by decide

theorem lowHex_lower_self : ∀ c ∈ lowHexChars, lowerChar c = c := by decide

theorem lowHex_upper_hex : ∀ c ∈ lowHexChars, upperChar c ∈ hexDigitChars := by
  decide

theorem lowHex_lower_upper : ∀ c ∈ lowHexChars, lowerChar (upperChar c) = c := by
  decide

theorem lower40_facts (s : String) (h : is_hex_address s = true) :
    (lower40 s).length = 40 ∧ ∀ c ∈ lower40 s, c ∈ lowHexChars := by
  obtain ⟨_, hlen, hhex⟩ := hex_facts s h
  constructor
  · simp [lower40, hlen]
  · intro c hc
    simp only [lower40, List.mem_map] at hc
    obtain ⟨a, ha, rfl⟩ := hc
    exact hexLower_mem a (hhex a ha)

theorem checksumMap_mem :
    ∀ (cs : List Char) (ns : List Nat), (∀ c ∈ cs, c ∈ lowHexChars) →
      ∀ c ∈ checksumMap ns cs, c ∈ hexDigitChars := by
  intro cs
  induction cs with
  | nil =>
    intro ns _ c hc
    cases ns <;> simp [checksumMap] at hc
  | cons a cs ih =>
    intro ns hmem c hc
    have hsub : ∀ c ∈ cs, c ∈ lowHexChars := fun c hcc => hmem c (by simp [hcc])
    have ha : a ∈ lowHexChars := hmem a (by simp)
    cases ns with
    | nil =>
      rw [show checksumMap [] (a :: cs) = a :: checksumMap [] cs from rfl] at hc
      rcases List.mem_cons.mp hc with rfl | hc
      · exact lowHex_sub_hex c ha
      · exact ih [] hsub c hc
    | cons n ns2 =>
      rw [show checksumMap (n :: ns2) (a :: cs)
          = (if 8 ≤ n then upperChar a else a) :: checksumMap ns2 cs from rfl] at hc
      rcases List.mem_cons.mp hc with rfl | hc
      · by_cases hn : 8 ≤ n
        · rw [if_pos hn]; exact lowHex_upper_hex a ha
        · rw [if_neg hn]; exact lowHex_sub_hex a ha
      · exact ih ns2 hsub c hc

theorem checksumMap_lower :
    ∀ (cs : List Char) (ns : List Nat), (∀ c ∈ cs, c ∈ lowHexChars) →
      (checksumMap ns cs).map lowerChar = cs := by
  intro cs
  induction cs with
  | nil =>
    intro ns _
    cases ns <;> rfl
  | cons a cs ih =>
    intro ns hmem
    have hsub : ∀ c ∈ cs, c ∈ lowHexChars := fun c hcc => hmem c (by simp [hcc])
    have ha : a ∈ lowHexChars := hmem a (by simp)
    cases ns with
    | nil =>
      rw [show checksumMap [] (a :: cs) = a :: checksumMap [] cs from rfl]
      simp only [List.map_cons, ih [] hsub, lowHex_lower_self a ha]
    | cons n ns2 =>
      rw [show checksumMap (n :: ns2) (a :: cs)
          = (if 8 ≤ n then upperChar a else a) :: checksumMap ns2 cs from rfl]
      simp only [List.map_cons, ih ns2 hsub]
      by_cases hn : 8 ≤ n
      · rw [if_pos hn, lowHex_lower_upper a ha]
      · rw [if_neg hn, lowHex_lower_self a ha]

theorem checksumMap_length :
    ∀ (cs : List Char) (ns : List Nat), (checksumMap ns cs).length = cs.length := by
  intro cs
  induction cs with
  | nil => intro ns; cases ns <;> rfl
  | cons a cs ih =>
    intro ns
    cases ns with
    | nil =>
      rw [show checksumMap [] (a :: cs) = a :: checksumMap [] cs from rfl]
      simp [ih []]
    | cons n ns2 =>
      rw [show checksumMap (n :: ns2) (a :: cs)
          = (if 8 ≤ n then upperChar a else a) :: checksumMap ns2 cs from rfl]
      simp [ih ns2]

theorem to_checksum_data (k : String → List Nat) (s : String) :
    (to_checksum_address k s).data
      = '0' :: 'x' :: checksumMap (k (String.mk (lower40 s))) (lower40 s) := by
  simp [to_checksum_address, String.data_append, data_mk]

theorem hexPrefixed_to_checksum (k : String → List Nat) (s : String) :
    hexPrefixed (to_checksum_address k s) = true := by
  unfold hexPrefixed
  rw [to_checksum_data]
  simp

theorem unpref_to_checksum (k : String → List Nat) (s : String) :
    unpref (to_checksum_address k s)
      = checksumMap (k (String.mk (lower40 s))) (lower40 s) := by
  rw [unpref, if_pos (hexPrefixed_to_checksum k s), to_checksum_data]
  rfl

theorem is_hex_address_to_checksum (k : String → List Nat) (s : String)
    (h : is_hex_address s = true) :
    is_hex_address (to_checksum_address k s) = true := by
  obtain ⟨hl, hm⟩ := lower40_facts s h
  have hne : to_checksum_address k s ≠ "" := by
    intro hh
    have hd := to_checksum_data k s
    rw [hh] at hd
    simp at hd
  unfold is_hex_address is_hexstr
  rw [unpref_to_checksum]
  simp only [Bool.and_eq_true, bne_iff_ne, ne_eq, beq_iff_eq]
  refine ⟨⟨hne, ?_⟩, ?_⟩
  · rw [List.all_eq_true]
    intro c hc
    exact decide_eq_true (checksumMap_mem (lower40 s) _ hm c hc)
  · rw [checksumMap_length, hl]

theorem lower40_to_checksum (k : String → List Nat) (s : String)
    (h : is_hex_address s = true) :
    lower40 (to_checksum_address k s) = lower40 s := by
  obtain ⟨hl, hm⟩ := lower40_facts s h
  rw [show lower40 (to_checksum_address k s)
      = (unpref (to_checksum_address k s)).map lowerChar from rfl,
    unpref_to_checksum]
  exact checksumMap_lower (lower40 s) _ hm

theorem to_checksum_idem (k : String → List Nat) (s : String)
    (h : is_hex_address s = true) :
    to_checksum_address k (to_checksum_address k s) = to_checksum_address k s := by
  conv_lhs => rw [to_checksum_address]
  rw [lower40_to_checksum k s h]
  rfl

theorem is_address_to_checksum (k : String → List Nat) (s : String)
    (h : is_hex_address s = true) :
    is_address k (to_checksum_address k s) = true := by
  unfold is_address
  by_cases hf : is_checksum_formatted_address (to_checksum_address k s) = true
  · rw [if_pos hf]
    unfold is_checksum_address
    simp [is_hex_address_to_checksum k s h, to_checksum_idem k s h]
  · rw [if_neg hf]
    exact is_hex_address_to_checksum k s h

theorem validate_ok (k : String → List Nat) (s : String)
    (h : is_address k s = true) :
    validate_address k s = Except.ok (to_checksum_address k s) := by
  unfold validate_address
  rw [if_pos h]

theorem validate_idem (k : String → List Nat) (s : String)
    (h : is_address k s = true) :
    validate_address k (to_checksum_address k s)
      = Except.ok (to_checksum_address k s) := by
  have hh := is_address_hex k s h
  unfold validate_address
  rw [if_pos (is_address_to_checksum k s hh), to_checksum_idem k s hh]

theorem hexPrefixed_length (s : String) (h : hexPrefixed s = true) :
    2 ≤ s.data.length := by
  unfold hexPrefixed at h
  rcases hd : s.data with _ | ⟨a, _ | ⟨b, t⟩⟩ <;> rw [hd] at h
  · simp at h
  · simp at h
  · simp

theorem unpref_pos (s : String) (h : hexPrefixed s = true) :
    unpref s = s.data.drop 2 := by
  rw [unpref, if_pos h]

theorem unpref_neg (s : String) (h : hexPrefixed s = false) :
    unpref s = s.data := by
  rw [unpref, if_neg (by simp [h])]

theorem valid_length (k : String → List Nat) (s : String)
    (h : is_address k s = true) :
    (hexPrefixed s = true ∧ s.data.length = 42)
    ∨ (hexPrefixed s = false ∧ s.data.length = 40) := by
  obtain ⟨_, hlen, _⟩ := hex_facts s (is_address_hex k s h)
  by_cases hp : hexPrefixed s = true
  · left
    refine ⟨hp, ?_⟩
    have h2 := hexPrefixed_length s hp
    rw [unpref_pos s hp, List.length_drop] at hlen
    omega
  · right
    have hp' : hexPrefixed s = false := by simpa using hp
    refine ⟨hp', ?_⟩
    rw [unpref_neg s hp'] at hlen
    exact hlen

theorem lower_map_eq_lower40 (k : String → List Nat) (s1 s2 : String)
    (h1 : is_address k s1 = true) (h2 : is_address k s2 = true)
    (hc : s1.data.map lowerChar = s2.data.map lowerChar) :
    lower40 s1 = lower40 s2 := by
  have hlen : s1.data.length = s2.data.length := by
    have := congrArg List.length hc
    simpa using this
  rcases valid_length k s1 h1 with ⟨hp1, hl1⟩ | ⟨hp1, hl1⟩ <;>
    rcases valid_length k s2 h2 with ⟨hp2, hl2⟩ | ⟨hp2, hl2⟩
  · rw [show lower40 s1 = (unpref s1).map lowerChar from rfl,
      show lower40 s2 = (unpref s2).map lowerChar from rfl,
      unpref_pos s1 hp1, unpref_pos s2 hp2,
      List.map_drop, List.map_drop, hc]
  · omega
  · omega
  · rw [show lower40 s1 = (unpref s1).map lowerChar from rfl,
      show lower40 s2 = (unpref s2).map lowerChar from rfl,
      unpref_neg s1 hp1, unpref_neg s2 hp2, hc]

theorem to_checksum_case (k : String → List Nat) (s1 s2 : String)
    (h1 : is_address k s1 = true) (h2 : is_address k s2 = true)
    (hc : s1.data.map lowerChar = s2.data.map lowerChar) :
    to_checksum_address k s1 = to_checksum_address k s2 := by
  rw [to_checksum_address, to_checksum_address,
    lower_map_eq_lower40 k s1 s2 h1 h2 hc]

theorem is_address_badShape (k : String → List Nat) (s : String)
    (h : badShape s = true) : is_address k s = false := by
  have hhex : is_hex_address s = false := by
    cases hA : ((unpref s).length == 40) <;>
      cases hB : (unpref s).all isHexChar <;>
        simp_all [badShape, is_hex_address, is_hexstr]
  have hform : is_checksum_formatted_address s = false := by
    simp [is_checksum_formatted_address, hhex]
  simp [is_address, hform, hhex]

theorem validate_badShape (k : String → List Nat) (s : String)
    (h : badShape s = true) :
    validate_address k s = Except.error Err.invalidAddress := by
  simp [validate_address, is_address_badShape k s h]

/-! ## Claim theorems -/

theorem fetch_ok_inv (nameOf symbolOf : String → Option String)
    (decimalsOf : String → Option Nat) (address : String) (td : TokenData)
    (h : fetch_token_data nameOf symbolOf decimalsOf address = Except.ok td) :
    nameOf address = some td.name ∧ symbolOf address = some td.symbol
    ∧ decimalsOf address = some td.decimals
    ∧ td.chainId = CHAIN_ID ∧ td.address = address := by
  unfold fetch_token_data at h
  cases hn : nameOf address with
  | none => rw [hn] at h; simp at h
  | some nm =>
    rw [hn] at h
    dsimp only at h
    cases hs : symbolOf address with
    | none => rw [hs] at h; simp at h
    | some sy =>
      rw [hs] at h
      dsimp only at h
      cases hd : decimalsOf address with
      | none => rw [hd] at h; simp at h
      | some dv =>
        rw [hd] at h
        dsimp only at h
        injection h with h1
        subst h1
        exact ⟨rfl, rfl, rfl, rfl, rfl⟩

/-- C9: every record assembled by `fetch_token_data` carries the fixed
chain id 143 and, unchanged, the address it was given; the three contract
calls never touch these two fields. -/
theorem fetch_chainId_address_fixed (nameOf symbolOf : String → Option String)
    (decimalsOf : String → Option Nat) (address : String) (td : TokenData)
    (h : fetch_token_data nameOf symbolOf decimalsOf address = Except.ok td) :
    td.chainId = 143 ∧ td.address = address := by
  obtain ⟨_, _, _, h143, haddr⟩ :=
    fetch_ok_inv nameOf symbolOf decimalsOf address td h
  exact ⟨h143, haddr⟩

theorem fetch_chainId_address_fixed_witness :
    (⟨143, "0xa", "Example Token", "EXT", 18⟩ : TokenData).chainId = 143
    ∧ (⟨143, "0xa", "Example Token", "EXT", 18⟩ : TokenData).address = "0xa" :=
  fetch_chainId_address_fixed (fun _ => some "Example Token")
    (fun _ => some "EXT") (fun _ => some 18) "0xa"
    ⟨143, "0xa", "Example Token", "EXT", 18⟩ (by decide)

/-- C8 counterexample: a contract whose `name()` and `symbol()` calls
return empty strings is fetched successfully, and the returned record has
empty `name` and `symbol`; the code never checks non-emptiness, so the
claim that fetched `symbol`/`name` are non-empty fails. -/
theorem fetch_allows_empty_name_symbol :
    fetch_token_data (fun _ => some "") (fun _ => some "")
        (fun _ => some 0) "0xabc"
      = Except.ok ⟨143, "0xabc", "", "", 0⟩ := by decide

/-- C8 amended: a successful fetch returns exactly the values reported by
the three contract calls — `decimals` is a natural number (the `uint8` ABI
decoding makes it non-negative by construction), and `name`/`symbol` are
whatever strings the contract reports, with no non-emptiness guarantee. -/
theorem fetch_reports_contract_values (nameOf symbolOf : String → Option String)
    (decimalsOf : String → Option Nat) (address : String) (td : TokenData)
    (h : fetch_token_data nameOf symbolOf decimalsOf address = Except.ok td) :
    nameOf address = some td.name ∧ symbolOf address = some td.symbol
    ∧ decimalsOf address = some td.decimals := by
  obtain ⟨h1, h2, h3, _, _⟩ :=
    fetch_ok_inv nameOf symbolOf decimalsOf address td h
  exact ⟨h1, h2, h3⟩

theorem fetch_reports_contract_values_witness :
    (fun _ : String => some "Example Token") "0xa"
        = some (⟨143, "0xa", "Example Token", "EXT", 18⟩ : TokenData).name
    ∧ (fun _ : String => some "EXT") "0xa"
        = some (⟨143, "0xa", "Example Token", "EXT", 18⟩ : TokenData).symbol
    ∧ (fun _ : String => some (18 : Nat)) "0xa"
        = some (⟨143, "0xa", "Example Token", "EXT", 18⟩ : TokenData).decimals :=
  fetch_reports_contract_values (fun _ => some "Example Token")
    (fun _ => some "EXT") (fun _ => some 18) "0xa"
    ⟨143, "0xa", "Example Token", "EXT", 18⟩ (by decide)

/-- C10: the pre-creation check is `Path.exists()`, which fires on any
filesystem entry at `registry-root/symbol`, in particular a plain file;
and an empty symbol resolves (via `Path / ""`) to the registry root
itself, which exists whenever it is registered, so creation then also
fails with `AlreadyExists` instead of writing. -/
theorem existence_check_any_entry (fs : FS) (m : List String) (td : TokenData) :
    (∀ content : String, (joinPath m td.symbol, FsEntry.file content) ∈ fs →
        create_token_directory fs m td = Except.error Err.alreadyExists)
    ∧ (td.symbol = "" → (m, FsEntry.dir) ∈ fs →
        create_token_directory fs m td = Except.error Err.alreadyExists) := by
  constructor
  · intro content hmem
    exact create_exists_error fs m td (mem_existsPath (FsEntry.file content) hmem)
  · intro hsym hmem
    apply create_exists_error fs m td
    rw [joinPath, if_pos hsym]
    exact mem_existsPath FsEntry.dir hmem

theorem existence_check_any_entry_witness :
    create_token_directory [(["mainnet", "EXT"], FsEntry.file "junk")]
        ["mainnet"] ⟨143, "0xa", "T", "EXT", 18⟩
      = Except.error Err.alreadyExists
    ∧ create_token_directory [(["mainnet"], FsEntry.dir)]
        ["mainnet"] ⟨143, "0xa", "T", "", 18⟩
      = Except.error Err.alreadyExists :=
  ⟨(existence_check_any_entry _ _ _).1 "junk" (by decide),
   (existence_check_any_entry [(["mainnet"], FsEntry.dir)] ["mainnet"]
      ⟨143, "0xa", "T", "", 18⟩).2 rfl (by decide)⟩

/-- C3: a run that fails before the file-write step — and, in this code,
any failing run at all — leaves the filesystem exactly as it was; in
particular an unreachable endpoint always exits 1 and creates nothing. -/
theorem pre_write_failure_frame (env : Env) :
    ((mainRun env).exit = 1 → (mainRun env).fs = env.fs)
    ∧ (env.connected = false →
        (mainRun env).exit = 1 ∧ (mainRun env).fs = env.fs) := by
  constructor
  · intro h
    rcases mainRun_cases env with hcase | hcase
    · exact hcase.2
    · rw [hcase.1] at h
      exact absurd h (by decide)
  · exact fun hc => mainRun_disconnected env hc

theorem pre_write_failure_frame_witness :
    (mainRun envDown).fs = envDown.fs ∧ (mainRun envDown).exit = 1 :=
  ⟨(pre_write_failure_frame envDown).1 (by decide),
   ((pre_write_failure_frame envDown).2 rfl).1⟩

/-- C6: every run exits with code 0 or code 1 and nothing else — exit 0
exactly when the run succeeded and wrote the two new filesystem entries,
exit 1 on any failure, with the filesystem untouched; in the model `main`
is a total function, so every modeled error is converted to the exit code
rather than escaping. -/
theorem exit_code_discipline (env : Env) :
    ((mainRun env).exit = 0 ∧ (mainRun env).fs.length = env.fs.length + 2)
    ∨ ((mainRun env).exit = 1 ∧ (mainRun env).fs = env.fs) :=
  (mainRun_cases env).symm

theorem writeContent_explicit (td : TokenData) :
    writeContent td
      = "\x7b\n  \"chainId\": " ++ natRepr td.chainId
        ++ ",\n  \"address\": " ++ encodeString td.address
        ++ ",\n  \"name\": " ++ encodeString td.name
        ++ ",\n  \"symbol\": " ++ encodeString td.symbol
        ++ ",\n  \"decimals\": " ++ natRepr td.decimals
        ++ "\n\x7d" ++ "\n" := by
  apply String.ext
  have e1 : escapeList ['c', 'h', 'a', 'i', 'n', 'I', 'd']
      = ['c', 'h', 'a', 'i', 'n', 'I', 'd'] := by decide
  have e2 : escapeList ['a', 'd', 'd', 'r', 'e', 's', 's']
      = ['a', 'd', 'd', 'r', 'e', 's', 's'] := by decide
  have e3 : escapeList ['n', 'a', 'm', 'e'] = ['n', 'a', 'm', 'e'] := by decide
  have e4 : escapeList ['s', 'y', 'm', 'b', 'o', 'l']
      = ['s', 'y', 'm', 'b', 'o', 'l'] := by decide
  have e5 : escapeList ['d', 'e', 'c', 'i', 'm', 'a', 'l', 's']
      = ['d', 'e', 'c', 'i', 'm', 'a', 'l', 's'] := by decide
  simp [writeContent, jsonDumpObj, tokenPairs, sepJoin, renderEntry,
    renderJVal, String.data_append, encodeString_data, data_mk, natRepr,
    List.append_assoc, e1, e2, e3, e4, e5]

/-- C4: on every successful entry creation, the file written at
`<token dir>/data.json` is the record serialized with two-space
indentation, field order chainId, address, name, symbol, decimals, and the
file ends with the closing brace followed by exactly one newline. -/
theorem data_json_layout (fs : FS) (m : List String) (td : TokenData)
    (fs2 : FS) (tdir : List String)
    (h : create_token_directory fs m td = Except.ok (fs2, tdir)) :
    FS.lookupFile fs2 (tdir ++ ["data.json"]) = some (writeContent td)
    ∧ writeContent td
        = "\x7b\n  \"chainId\": " ++ natRepr td.chainId
          ++ ",\n  \"address\": " ++ encodeString td.address
          ++ ",\n  \"name\": " ++ encodeString td.name
          ++ ",\n  \"symbol\": " ++ encodeString td.symbol
          ++ ",\n  \"decimals\": " ++ natRepr td.decimals
          ++ "\n\x7d" ++ "\n"
    ∧ ∃ core : List Char, (writeContent td).data = core ++ ['\x7d', '\n'] := by
  obtain ⟨ht, hex, hshape⟩ := create_ok_shape fs m td fs2 tdir h
  refine ⟨?_, writeContent_explicit td, ?_⟩
  · rw [hshape]
    exact lookup_new_file fs (tdir ++ ["data.json"]) (writeContent td)
      (tdir, FsEntry.dir)
  · refine ⟨("\x7b\n" ++ sepJoin ",\n" ((tokenPairs td).map renderEntry)).data
      ++ ['\n'], ?_⟩
    have hj : jsonDumpObj (tokenPairs td)
        = "\x7b\n" ++ sepJoin ",\n" ((tokenPairs td).map renderEntry)
          ++ "\n\x7d" := rfl
    simp [writeContent, hj, String.data_append, List.append_assoc]

theorem data_json_layout_witness :
    FS.lookupFile
        ((["mainnet", "EXT", "data.json"],
            FsEntry.file (writeContent ⟨143, "0xa", "Example", "EXT", 18⟩))
          :: (["mainnet", "EXT"], FsEntry.dir) :: [(["mainnet"], FsEntry.dir)])
        (["mainnet", "EXT"] ++ ["data.json"])
      = some (writeContent ⟨143, "0xa", "Example", "EXT", 18⟩)
    ∧ writeContent ⟨143, "0xa", "Example", "EXT", 18⟩
        = "\x7b\n  \"chainId\": " ++ natRepr 143
          ++ ",\n  \"address\": " ++ encodeString "0xa"
          ++ ",\n  \"name\": " ++ encodeString "Example"
          ++ ",\n  \"symbol\": " ++ encodeString "EXT"
          ++ ",\n  \"decimals\": " ++ natRepr 18
          ++ "\n\x7d" ++ "\n"
    ∧ ∃ core : List Char,
        (writeContent ⟨143, "0xa", "Example", "EXT", 18⟩).data
          = core ++ ['\x7d', '\n'] :=
  data_json_layout [(["mainnet"], FsEntry.dir)] ["mainnet"]
    ⟨143, "0xa", "Example", "EXT", 18⟩ _ ["mainnet", "EXT"] (by decide)

/-- C5: on every successful entry creation the written `data.json` is the
rendering of a flat JSON object with exactly the five documented fields in
order, and parsing the file contents back yields exactly the record that
was serialized (serialize-then-parse round-trip). -/
theorem data_json_roundtrip (fs : FS) (m : List String) (td : TokenData)
    (fs2 : FS) (tdir : List String)
    (h : create_token_directory fs m td = Except.ok (fs2, tdir)) :
    ∃ content, FS.lookupFile fs2 (tdir ++ ["data.json"]) = some content
      ∧ content = jsonDumpObj (tokenPairs td) ++ "\n"
      ∧ (tokenPairs td).map Prod.fst
          = ["chainId", "address", "name", "symbol", "decimals"]
      ∧ parseTokenFile content = some td := by
  obtain ⟨ht, hex, hshape⟩ := create_ok_shape fs m td fs2 tdir h
  refine ⟨writeContent td, ?_, rfl, rfl, parseTokenFile_writeContent td⟩
  rw [hshape]
  exact lookup_new_file fs (tdir ++ ["data.json"]) (writeContent td)
    (tdir, FsEntry.dir)

theorem data_json_roundtrip_witness :
    ∃ content,
      FS.lookupFile
          ((["mainnet", "EXT", "data.json"],
              FsEntry.file (writeContent ⟨143, "0xb", "Tok", "EXT", 6⟩))
            :: (["mainnet", "EXT"], FsEntry.dir) :: [(["mainnet"], FsEntry.dir)])
          (["mainnet", "EXT"] ++ ["data.json"]) = some content
      ∧ content = jsonDumpObj (tokenPairs ⟨143, "0xb", "Tok", "EXT", 6⟩) ++ "\n"
      ∧ (tokenPairs ⟨143, "0xb", "Tok", "EXT", 6⟩).map Prod.fst
          = ["chainId", "address", "name", "symbol", "decimals"]
      ∧ parseTokenFile content = some ⟨143, "0xb", "Tok", "EXT", 6⟩ :=
  data_json_roundtrip [(["mainnet"], FsEntry.dir)] ["mainnet"]
    ⟨143, "0xb", "Tok", "EXT", 6⟩ _ ["mainnet", "EXT"] (by decide)

/-- C2 counterexample: a bare 40-hex-digit string with no `0x` prefix is
accepted by validation (web3's `is_address` allows non-prefixed values),
returning the prefixed checksummed form instead of failing with
`InvalidAddress` — and a run given such an address proceeds to the
network. -/
theorem validate_accepts_missing_prefix :
    validate_address kZero "d3cda913deb6f67967b99d67acdfa1712c293601"
      = Except.ok "0xd3cda913deb6f67967b99d67acdfa1712c293601"
    ∧ (mainRun envBare).netAttempted = true := by
  exact ⟨by decide, by decide⟩

/-- C2 amended: for every address string whose unprefixed part is not
exactly 40 hex digits (wrong length or non-hex characters), validation
fails with `InvalidAddress` — under every possible keccak hash — the run
exits 1, no network call is attempted, and the filesystem is untouched.
A missing `0x` prefix alone does not cause failure. -/
theorem invalid_shape_error_before_network (env : Env) (s : String)
    (hA : env.addressArg = some s) (hne : s ≠ "") (hbad : badShape s = true) :
    validate_address env.keccak s = Except.error Err.invalidAddress
    ∧ (mainRun env).exit = 1 ∧ (mainRun env).netAttempted = false
    ∧ (mainRun env).fs = env.fs := by
  have hv := validate_badShape env.keccak s hbad
  have hm := mainRun_invalid env s hA hne hv
  rw [hm]
  exact ⟨hv, rfl, rfl, rfl⟩

theorem invalid_shape_error_before_network_witness :
    validate_address envBad.keccak "0x123" = Except.error Err.invalidAddress
    ∧ (mainRun envBad).exit = 1 ∧ (mainRun envBad).netAttempted = false
    ∧ (mainRun envBad).fs = envBad.fs :=
  invalid_shape_error_before_network envBad "0x123" rfl (by decide) (by decide)

/-- C7: for any keccak hash, any two accepted address strings that are
equal up to letter case produce the identical checksummed output, and the
normalization is idempotent: validating the checksummed output again
succeeds and returns the output itself. -/
theorem validate_case_insensitive_idempotent (k : String → List Nat)
    (s1 s2 : String) (h1 : is_address k s1 = true)
    (h2 : is_address k s2 = true)
    (hcase : s1.data.map lowerChar = s2.data.map lowerChar) :
    validate_address k s1 = validate_address k s2
    ∧ validate_address k s1 = Except.ok (to_checksum_address k s1)
    ∧ validate_address k (to_checksum_address k s1)
        = Except.ok (to_checksum_address k s1) := by
  refine ⟨?_, validate_ok k s1 h1, validate_idem k s1 h1⟩
  rw [validate_ok k s1 h1, validate_ok k s2 h2,
    to_checksum_case k s1 s2 h1 h2 hcase]

theorem validate_case_insensitive_idempotent_witness :
    is_address kHigh "0xabababababababababababababababababababab" = true
    ∧ is_address kHigh "0XABABABABABABABABABABABABABABABABABABABAB" = true
    ∧ ("0xabababababababababababababababababababab" : String).data.map lowerChar
        = ("0XABABABABABABABABABABABABABABABABABABABAB" : String).data.map lowerChar
    ∧ (validate_address kHigh "0xabababababababababababababababababababab"
        = validate_address kHigh "0XABABABABABABABABABABABABABABABABABABABAB"
      ∧ validate_address kHigh "0xabababababababababababababababababababab"
          = Except.ok (to_checksum_address kHigh
              "0xabababababababababababababababababababab")
      ∧ validate_address kHigh (to_checksum_address kHigh
            "0xabababababababababababababababababababab")
          = Except.ok (to_checksum_address kHigh
              "0xabababababababababababababababababababab")) :=
  ⟨by decide, by decide, by decide,
   validate_case_insensitive_idempotent kHigh _ _ (by decide) (by decide)
     (by decide)⟩

/-- C1: if the registry already contains a directory entry named after the
record's symbol, entry creation fails with `AlreadyExists`; and after any
successful run, running again with the same environment (same address,
same chain answers) fails with exit code 1 and leaves the filesystem —
including the file written by the first run — byte-for-byte unchanged. -/
theorem create_entry_already_exists (fs : FS) (m : List String)
    (td : TokenData) :
    ((joinPath m td.symbol, FsEntry.dir) ∈ fs →
        create_token_directory fs m td = Except.error Err.alreadyExists)
    ∧ ∀ env : Env, (mainRun env).exit = 0 →
        mainRun (Env.setFs env (mainRun env).fs)
          = ⟨1, (mainRun env).fs, true⟩ := by
  constructor
  · intro hmem
    exact create_exists_error fs m td (mem_existsPath FsEntry.dir hmem)
  · intro env h
    obtain ⟨address, td2, md, h0, hv, hcon, hf, hm, hex, hshape⟩ :=
      mainRun_success env h
    obtain ⟨hmd, hdir⟩ := get_mainnet_ok env.scriptParent env.fs md hm
    subst hmd
    rw [hshape]
    generalize hF2 : (joinPath (env.scriptParent ++ ["mainnet"]) td2.symbol
        ++ ["data.json"], FsEntry.file (writeContent td2))
      :: (joinPath (env.scriptParent ++ ["mainnet"]) td2.symbol, FsEntry.dir)
      :: env.fs = F2
    have e2 : resolveArg (Env.setFs env F2) = resolveArg env := rfl
    have hv2 : validate_address (Env.setFs env F2).keccak
        (resolveArg env) = Except.ok address := hv
    simp only [mainRun, e2, if_neg h0, hv2]
    try dsimp only
    have hcon2 : (Env.setFs env F2).connected = true := hcon
    rw [hcon2]
    simp only [reduceIte, reduceCtorEq]
    have hf2 : fetch_token_data (Env.setFs env F2).nameOf
        (Env.setFs env F2).symbolOf (Env.setFs env F2).decimalsOf address
      = Except.ok td2 := hf
    rw [hf2]
    try dsimp only
    have hdir2 : FS.isDir F2 (env.scriptParent ++ ["mainnet"]) = true := by
      rw [← hF2]
      simp only [FS.isDir, List.any_cons] at hdir ⊢
      rw [hdir]
      simp
    have hget : get_mainnet_directory (Env.setFs env F2).scriptParent
        (Env.setFs env F2).fs
        = Except.ok (env.scriptParent ++ ["mainnet"]) := by
      show get_mainnet_directory env.scriptParent F2 = _
      rw [get_mainnet_directory, if_pos hdir2]
    rw [hget]
    try dsimp only
    have hex2 : FS.existsPath F2
        (joinPath (env.scriptParent ++ ["mainnet"]) td2.symbol) = true := by
      rw [← hF2]
      simp [FS.existsPath, List.any_cons]
    have hcr : create_token_directory (Env.setFs env F2).fs
        (env.scriptParent ++ ["mainnet"]) td2
        = Except.error Err.alreadyExists := by
      show create_token_directory F2 _ td2 = _
      exact create_exists_error F2 _ td2 hex2
    rw [hcr]
    rfl

theorem create_entry_already_exists_witness :
    create_token_directory [(["mainnet", "EXT"], FsEntry.dir)] ["mainnet"]
        ⟨143, "0xa", "T", "EXT", 18⟩ = Except.error Err.alreadyExists
    ∧ mainRun (Env.setFs envEx (mainRun envEx).fs)
        = ⟨1, (mainRun envEx).fs, true⟩ :=
  ⟨(create_entry_already_exists [(["mainnet", "EXT"], FsEntry.dir)]
      ["mainnet"] ⟨143, "0xa", "T", "EXT", 18⟩).1 (by decide),
   (create_entry_already_exists [] [] ⟨0, "", "", "", 0⟩).2 envEx (by decide)⟩
